import Mathlib

/-
  Verification development for the drivefuse core: the content-addressable
  blob store (src/blob/blob.go) and the inbound sync engine
  (src/syncer/syncer.go), shallowly embedded as executable Lean functions.

  The on-disk state of the blob store is modelled as a finite map from
  (directory, file name) pairs to byte lists, plus the set of existing
  directories.  Byte values are modelled as Nat.  The buffered writer used
  by Save (bufio.NewWriter, default buffer 4096 bytes, never flushed by the
  source) is modelled explicitly, since it determines which bytes actually
  reach the file.
-/

set_option autoImplicit false
set_option maxHeartbeats 1000000

namespace Drivefuse

/-- Error kinds for modelled I/O operations: a missing file/directory
(`os.Open` / `ioutil.ReadDir` on a non-existent path) and end-of-file. -/
inductive IOErr where
  | notFound
  | eof
  deriving DecidableEq

namespace Blob

/-- `headMatch sub l` is true when `sub` is a leading segment of `l`
(byte-level model of Go's prefix test used below). -/
def headMatch : List Char → List Char → Bool
  | [], _ => true
  | _ :: _, [] => false
  | a :: as, b :: bs => a == b && headMatch as bs

/-- `containsSub sub l` is true when `sub` occurs contiguously inside `l`:
the model of Go's `strings.Contains(l, sub)`. -/
def containsSub (sub : List Char) : List Char → Bool
  | [] => sub.isEmpty
  | c :: cs => headMatch sub (c :: cs) || containsSub sub cs

/-- The modelled filesystem: the set of existing directories and a finite
map from (directory, file name) to file content. -/
structure FS where
  dirs : List String
  files : List ((String × String) × List Nat)
  deriving DecidableEq

/-- The empty filesystem. -/
def emptyFS : FS := ⟨[], []⟩

/-- Look a file up by its (directory, name) key. -/
def findFile (key : String × String) : List ((String × String) × List Nat) → Option (List Nat)
  | [] => none
  | e :: es => if e.1 = key then some e.2 else findFile key es

/-- Store content under a (directory, name) key, replacing any previous
entry for that key. -/
def setEntry (key : String × String) (v : List Nat) :
    List ((String × String) × List Nat) → List ((String × String) × List Nat)
  | [] => [(key, v)]
  | e :: es => if e.1 = key then (key, v) :: es else e :: setEntry key v es

/-- `Manager.getBlobDir`: the shard directory `path.Join(blobPath, id[l-2:l])`. -/
def getBlobDir (blobPath id : String) : String :=
  blobPath ++ "/" ++ String.mk (id.data.drop (id.data.length - 2))

/-- `Manager.getBlobName`: `id + "==" + checksum`. -/
def getBlobName (id checksum : String) : String :=
  id ++ "==" ++ checksum

/-- `Manager.cleanup`: list the shard directory (error when it does not
exist), and remove every file whose name differs from the blob name for
`checksum` and contains `id + "=="` as a substring.  Removal errors are
swallowed by the source, and the success path always returns nil. -/
def cleanup (blobPath id checksum : String) (fs : FS) : Except IOErr FS :=
  if fs.dirs.contains (getBlobDir blobPath id) then
    .ok { fs with files := fs.files.filter (fun e =>
      !(e.1.1 == getBlobDir blobPath id && !(e.1.2 == getBlobName id checksum)
        && containsSub (getBlobName id "").data e.1.2.data)) }
  else
    .error .notFound

/-- The `bufio.Writer` default buffer size. -/
def bufSize : Nat := 4096

/-- State of the buffered writer: bytes already written through to the
file, and bytes still sitting in the 4096-byte buffer. -/
structure BufWriter where
  flushed : List Nat
  buf : List Nat
  deriving DecidableEq

/-- One `writer.Write(p)` call for a chunk of at most 4096 bytes: if the
chunk fits in the remaining buffer space it is only buffered; otherwise
the buffer is topped up, flushed to the file, and the remainder buffered. -/
def bufWrite (w : BufWriter) (p : List Nat) : BufWriter :=
  if w.buf.length + p.length ≤ bufSize then
    { w with buf := w.buf ++ p }
  else
    let avail := bufSize - w.buf.length
    { flushed := w.flushed ++ w.buf ++ p.take avail, buf := p.drop avail }

/-- The bytes that actually reach the file after `Save`'s copy loop: the
content arrives as successive reader chunks (each at most 4096 bytes), is
pushed through the buffered writer, and the final buffer content is lost
because the source never calls `Flush`. -/
def savedBytes (chunks : List (List Nat)) : List Nat :=
  (chunks.foldl bufWrite ⟨[], []⟩).flushed

/-- `os.OpenFile` with `O_CREATE|O_RDWR` (no `O_TRUNC`) followed by writes
from offset 0: the written bytes overwrite the head of any previous
content, and any previous tail beyond them survives. -/
def overwriteContent (old new_ : List Nat) : List Nat :=
  new_ ++ old.drop new_.length

/-- `Manager.Save`: run `cleanup` (its error is ignored), create the shard
directory, open/create the blob file at `(id, checksum)` and stream the
reader chunks through the (never flushed) buffered writer. -/
def Save (blobPath id checksum : String) (chunks : List (List Nat)) (fs : FS) : FS :=
  let fs1 := match cleanup blobPath id checksum fs with
    | .ok f => f
    | .error _ => fs
  let d := getBlobDir blobPath id
  let fs2 : FS := { fs1 with dirs := if fs1.dirs.contains d then fs1.dirs else d :: fs1.dirs }
  let key := (d, getBlobName id checksum)
  let old := (findFile key fs2.files).getD []
  { fs2 with files := setEntry key (overwriteContent old (savedBytes chunks)) fs2.files }

/-- `Manager.Read`: open the blob at `(id, checksum)` (not-found error when
absent), seek, and perform a single bounded read of up to `l` bytes into an
`l`-byte zeroed buffer; a read at end-of-data yields `io.EOF`. -/
def Read (blobPath id checksum : String) (seek : Nat) (l : Nat) (fs : FS) :
    Except IOErr (List Nat × Nat) :=
  match findFile (getBlobDir blobPath id, getBlobName id checksum) fs.files with
  | none => .error .notFound
  | some content =>
    let s := min l (content.length - seek)
    if 0 < l ∧ s = 0 then
      .error .eof
    else
      .ok ((content.drop seek).take s ++ List.replicate (l - s) 0, s)

/-- `Manager.Delete`: `cleanup(id, "*")` — the `*` sentinel makes the
"keep the current checksum" exception target the name `id==*`. -/
def Delete (blobPath id : String) (fs : FS) : Except IOErr FS :=
  cleanup blobPath id "*" fs


end Blob

namespace Syncer
/-!
The syncer (src/syncer/syncer.go) drives inbound reconciliation against two
collaborators that are not part of this repository's sources: the remote
Drive client (`client` package) and the local `metadata` package.  Both are
modelled at their interface boundary.  The remote is an oracle `Env`
supplying the root-file fetch and the paginated change listing; the
metadata collaborator is a state (`MetaState`) holding the persisted
cursor, the records keyed by file id, and a chronological log of the ids
passed to its save operation.
-/

/-- `client.File` fields the syncer touches: `Id`, `Title`, `MimeType`,
`FileSize`, `Md5Checksum`, `DownloadUrl`, `Labels.Trashed` (flattened) and
the ids of `Parents`. -/
structure DriveFile where
  id : String
  title : String
  mimeType : String
  fileSize : Int
  md5Checksum : String
  downloadUrl : String
  trashed : Bool
  parents : List String
  deriving DecidableEq

/-- `client.Change`: change id, file id, deletion flag and the file body. -/
structure Change where
  id : Int
  fileId : String
  deleted : Bool
  file : DriveFile
  deriving DecidableEq

/-- Modelled from the spec: `metadata.IdRootFolder`, the canonical sentinel
root id substituted for the remote account's true root id (spec §3); the
metadata package is not among the sources, so the constant's concrete value
is a stand-in. -/
def IdRootFolder : String := "root"

/-- Modelled from the spec: `metadata.MimeTypeFolder`, the MIME type
marking folder entries (spec §4.5). -/
def MimeTypeFolder : String := "application/vnd.google-apps.folder"

/-- Modelled from the spec: `metadata.CachedDriveFile`, the metadata record
with id, parent id, name, MIME type, size, content checksum and a
modification timestamp (spec §3). -/
structure CachedDriveFile where
  id : String
  parentId : String
  name : String
  mimeType : String
  fileSize : Int
  md5Checksum : String
  lastMod : Nat
  deriving DecidableEq

/-- Modelled from the spec: `CachedDriveFile.IsFolder` distinguishes
folder entries by their MIME type (spec §4.5: the save call signals
"leaf" exactly for non-folder items). -/
def CachedDriveFile.IsFolder (f : CachedDriveFile) : Bool :=
  f.mimeType == MimeTypeFolder

/-- One page-listing request as the syncer builds it: page token, start
change id (0 when unset), the tri-state include-deleted flag (`none` when
not set on the request) and the include-subscribed flag. -/
structure ChangeReq where
  pageToken : String
  startChangeId : Int
  includeDeleted : Option Bool
  includeSubscribed : Bool
  deriving DecidableEq

/-- `client.ChangeList`: one page of the change feed. -/
structure ChangeList where
  nextPageToken : String
  items : List Change
  deriving DecidableEq

/-- Modelled from the spec: the observable state of the metadata
collaborator (spec §6) — the persisted cursor (`none` when reading it
fails), the records keyed by file id together with the leaf flag they were
saved with, and a chronological log of ids passed to `save`. -/
structure MetaState where
  largestChangeId : Option Int
  records : List (String × (CachedDriveFile × Bool))
  saveLog : List String
  deriving DecidableEq

/-- The environment: remote responses and collaborator failure behaviour.
`rootFile` answers `Files.Get(IdRootFolder)`; `listChanges` answers
`Changes.List`; `failSave id` makes the metadata save for `id` fail;
`deleteFails id` makes the metadata delete for `id` report an error. -/
structure Env where
  rootFile : Except Unit DriveFile
  listChanges : ChangeReq → Except Unit ChangeList
  failSave : String → Bool
  deleteFails : String → Bool

/-- Look a record up by file id. -/
def findRec (id : String) :
    List (String × (CachedDriveFile × Bool)) → Option (CachedDriveFile × Bool)
  | [] => none
  | e :: es => if e.1 = id then some e.2 else findRec id es

/-- Store a record under a file id, replacing any previous one. -/
def setRec (id : String) (v : CachedDriveFile × Bool) :
    List (String × (CachedDriveFile × Bool)) → List (String × (CachedDriveFile × Bool))
  | [] => [(id, v)]
  | e :: es => if e.1 = id then (id, v) :: es else e :: setRec id v es

/-- Modelled from the spec: `MetaService.Save(parentId, id, data, isLeaf,
flag)` — persists the record under `id` (recording the leaf flag) and logs
the call; fails when the environment says so.  The `parentId` and `flag`
arguments are owned by the collaborator and do not affect the modelled
state. -/
def metaSave (env : Env) (st : MetaState) (parentId id : String) (data : CachedDriveFile)
    (isLeaf flag : Bool) : Except Unit MetaState :=
  if env.failSave id then
    .error ()
  else
    .ok { st with records := setRec id (data, isLeaf) st.records,
                  saveLog := st.saveLog ++ [id] }

/-- Modelled from the spec: `MetaService.Delete(id)` — removes the record
for `id`; the boolean reports whether the collaborator signalled an error
(in which case the state is unchanged). -/
def metaDelete (env : Env) (st : MetaState) (id : String) : MetaState × Bool :=
  if env.deleteFails id then
    (st, true)
  else
    ({ st with records := st.records.filter (fun e => !(e.1 == id)) }, false)

/-- `CachedSyncer.mergeChange`: deletion/trash handling, the
no-download/non-folder skip, parent resolution with the root remap, and the
metadata save.  The boolean result is the returned error.  Note the source
peculiarity on the delete branch: `if d.metaService.Delete(item.FileId);
err != nil` discards the delete result and tests the enclosing (still nil)
`err`, so that branch never returns an error. -/
def mergeChange (env : Env) (now : Nat) (rootId : String) (item : Change)
    (st : MetaState) : MetaState × Bool :=
  if item.deleted || item.file.trashed then
    ((metaDelete env st item.fileId).1, false)
  else
    if item.file.downloadUrl == "" && !(item.file.mimeType == MimeTypeFolder) then
      (st, false)
    else
      let parentId0 := match item.file.parents with
        | [] => ""
        | p :: _ => p
      let parentId := if parentId0 == rootId then IdRootFolder else parentId0
      let data : CachedDriveFile :=
        { id := item.fileId
          parentId := parentId
          name := item.file.title
          mimeType := item.file.mimeType
          fileSize := item.file.fileSize
          md5Checksum := item.file.md5Checksum
          lastMod := now }
      match metaSave env st parentId item.fileId data (!data.IsFolder) false with
      | .error _ => (st, true)
      | .ok st1 => (st1, false)

/-- The merge loop inside `CachedSyncer.mergeChanges`: fold `mergeChange`
over the page items, stopping at the first error; `largestId` is updated
to the item's change id only after that item merged successfully.  Returns
the state, the final `largestId` and the error flag. -/
def mergeItems (env : Env) (now : Nat) (rootId : String) :
    List Change → MetaState → Int → MetaState × Int × Bool
  | [], st, largestId => (st, largestId, false)
  | item :: rest, st, largestId =>
    match mergeChange env now rootId item st with
    | (st1, true) => (st1, largestId, true)
    | (st1, false) => mergeItems env now rootId rest st1 item.id

/-- Request construction in `CachedSyncer.mergeChanges`: subscribed items
always excluded; a held page token takes precedence over a positive start
change id; deletion tombstones excluded exactly on the initial sync. -/
def mkChangeReq (isInitialSync : Bool) (startChangeId : Int) (pageToken : String) :
    ChangeReq :=
  { pageToken := pageToken
    startChangeId := if !(pageToken == "") then 0
      else if startChangeId > 0 then startChangeId else 0
    includeDeleted := if isInitialSync then some false else none
    includeSubscribed := false }

/-- `CachedSyncer.mergeChanges`: fetch one page, merge its items in feed
order, and — only when the whole page merged and the last item's id is
positive — persist that id as the new cursor.  Returns the state, the next
page token and the error flag. -/
def mergeChanges (env : Env) (now : Nat) (isInitialSync : Bool) (rootId : String)
    (startChangeId : Int) (pageToken : String) (st : MetaState) :
    MetaState × String × Bool :=
  match env.listChanges (mkChangeReq isInitialSync startChangeId pageToken) with
  | .error _ => (st, "", true)
  | .ok changes =>
    match mergeItems env now rootId changes.items st 0 with
    | (st1, _, true) => (st1, changes.nextPageToken, true)
    | (st1, largestId, false) =>
      if largestId > 0 then
        ({ st1 with largestChangeId := some largestId }, changes.nextPageToken, false)
      else
        (st1, changes.nextPageToken, false)

/-- The pagination loop of `CachedSyncer.syncInbound`, with explicit fuel
bounding the number of pages (the source loops until an empty next-page
token or an error).  Also returns the listing requests issued, oldest
first. -/
def syncPages (env : Env) (now : Nat) (isInitialSync : Bool) (rootId : String)
    (startChangeId : Int) : Nat → String → MetaState → MetaState × Bool × List ChangeReq
  | 0, _, st => (st, true, [])
  | fuel + 1, pageToken, st =>
    match mergeChanges env now isInitialSync rootId startChangeId pageToken st with
    | (st1, _, true) => (st1, true, [mkChangeReq isInitialSync startChangeId pageToken])
    | (st1, nextTok, false) =>
      if nextTok == "" then
        (st1, false, [mkChangeReq isInitialSync startChangeId pageToken])
      else
        let r := syncPages env now isInitialSync rootId startChangeId fuel nextTok st1
        (r.1, r.2.1, mkChangeReq isInitialSync startChangeId pageToken :: r.2.2)

/-- Cursor resolution at the head of `CachedSyncer.syncInbound`: a failed
read or a forced pass resets to 0, otherwise resume from the persisted
cursor plus one. -/
def resumePoint (isForce : Bool) (cursor : Option Int) : Int :=
  match cursor with
  | none => 0
  | some v => if isForce then 0 else v + 1

/-- Outcome of one inbound pass: final metadata state, whether the pass
returned an error, and the listing requests issued. -/
structure SyncResult where
  st : MetaState
  errored : Bool
  reqs : List ChangeReq
  deriving DecidableEq

/-- `CachedSyncer.syncInbound`: resolve the resume point, fetch the remote
root, persist the root record under the sentinel id, then drive the
pagination loop. -/
def syncInbound (env : Env) (now : Nat) (isForce : Bool) (fuel : Nat)
    (st : MetaState) : SyncResult :=
  let largestChangeId := resumePoint isForce st.largestChangeId
  let isInitialSync := largestChangeId == 0
  match env.rootFile with
  | .error _ => ⟨st, true, []⟩
  | .ok rootFile =>
    let data : CachedDriveFile :=
      { id := IdRootFolder
        parentId := ""
        name := rootFile.title
        mimeType := rootFile.mimeType
        fileSize := rootFile.fileSize
        md5Checksum := rootFile.md5Checksum
        lastMod := now }
    match metaSave env st "" IdRootFolder data false false with
    | .error _ => ⟨st, true, []⟩
    | .ok st1 =>
      let r := syncPages env now isInitialSync rootFile.id largestChangeId fuel "" st1
      ⟨r.1, r.2.1, r.2.2⟩

/-- The metadata record the save branch of `mergeChange` builds for a
non-deleted item: a specification-side name for the record constructed
inline in the source, used to state what gets persisted. -/
def mergeData (now : Nat) (rootId : String) (item : Change) : CachedDriveFile :=
  { id := item.fileId
    parentId :=
      if (match item.file.parents with
          | [] => ""
          | p :: _ => p) == rootId
      then IdRootFolder
      else (match item.file.parents with
          | [] => ""
          | p :: _ => p)
    name := item.file.title
    mimeType := item.file.mimeType
    fileSize := item.file.fileSize
    md5Checksum := item.file.md5Checksum
    lastMod := now }
/-- Empty metadata state: cursor read fails, no records, no saves yet. -/
def initialMeta : MetaState := ⟨none, [], []⟩

/-- A folder-typed remote file with the given id and parent list. -/
def folderFile (fid : String) (par : List String) : DriveFile :=
  { id := fid, title := "t" ++ fid, mimeType := MimeTypeFolder, fileSize := 0,
    md5Checksum := "", downloadUrl := "", trashed := false, parents := par }

/-- A single-page feed whose items carry change ids 5 then 2 (feed order
is not id-sorted). -/
def pageUnsorted : ChangeList :=
  ⟨"", [⟨5, "A", false, folderFile "A" ["R"]⟩, ⟨2, "B", false, folderFile "B" ["R"]⟩]⟩

/-- Environment serving `pageUnsorted` as the only page; no failures. -/
def envUnsorted : Env :=
  { rootFile := .ok (folderFile "R" [])
    listChanges := fun _ => .ok pageUnsorted
    failSave := fun _ => false
    deleteFails := fun _ => false }

/-- A two-item feed: change 1 for file `A`, change 2 for file `B`. -/
def feedTwo : List Change :=
  [⟨1, "A", false, folderFile "A" ["R"]⟩, ⟨2, "B", false, folderFile "B" ["R"]⟩]

/-- Environment serving `feedTwo` in one page, honouring the start change
id of the request; the metadata save for file `B` always fails. -/
def envFailB : Env :=
  { rootFile := .ok (folderFile "R" [])
    listChanges := fun req => .ok ⟨"",
      if req.startChangeId > 0 then feedTwo.filter (fun it => req.startChangeId ≤ it.id)
      else feedTwo⟩
    failSave := fun id => id == "B"
    deleteFails := fun _ => false }

/-- Environment with an empty change feed and no failures. -/
def envEmptyFeed : Env :=
  { rootFile := .ok (folderFile "R" [])
    listChanges := fun _ => .ok ⟨"", []⟩
    failSave := fun _ => false
    deleteFails := fun _ => false }

/-- Environment whose metadata delete operation always reports an error. -/
def envDeleteFails : Env := { envEmptyFeed with deleteFails := fun _ => true }

end Syncer

namespace Blob

theorem headMatch_append (l r : List Char) : headMatch l (l ++ r) = true := by
  induction l with
  | nil => rfl
  | cons a as ih => simp [headMatch, ih]

theorem containsSub_append (l r : List Char) : containsSub l (l ++ r) = true := by
  cases l with
  | nil =>
    induction r with
    | nil => rfl
    | cons c cs ih => simp [containsSub, headMatch]
  | cons a as =>
    have h := headMatch_append (a :: as) r
    simp only [List.cons_append] at h
    simp [containsSub, h]

theorem data_getBlobName (id c : String) :
    (getBlobName id c).data = (id.data ++ [Char.ofNat 61, Char.ofNat 61]) ++ c.data := by
  simp [getBlobName, String.data_append]

theorem getBlobName_inj {id c c' : String} (h : getBlobName id c = getBlobName id c') :
    c = c' := by
  have hd := congrArg String.data h
  rw [data_getBlobName, data_getBlobName] at hd
  exact String.ext (List.append_cancel_left hd)

theorem containsSub_blobName (id c : String) :
    containsSub (getBlobName id "").data (getBlobName id c).data = true := by
  rw [data_getBlobName, data_getBlobName]
  simpa using containsSub_append (id.data ++ [Char.ofNat 61, Char.ofNat 61]) c.data

theorem findFile_filter_none (p : ((String × String) × List Nat) → Bool)
    (key : String × String) (files : List ((String × String) × List Nat))
    (h : ∀ v, p (key, v) = false) : findFile key (files.filter p) = none := by
  induction files with
  | nil => rfl
  | cons e es ih =>
    by_cases he : p e = true
    · rw [List.filter_cons_of_pos he]
      have hne : e.1 ≠ key := by
        intro hk
        have : p (key, e.2) = false := h e.2
        rw [← hk] at this
        simp at this
        exact absurd he (by simp [this])
      simp [findFile, hne, ih]
    · rw [List.filter_cons_of_neg he]
      exact ih

/-- Claim C1 (evaluation at the failing input): after `save("ab","x",[1])`
then `save("ab","y",[7])`, exactly one blob file exists for id `"ab"` —
the one at checksum `"y"` — and `read("ab","x",...)` fails with not-found,
as the claim states; but the retained file is empty rather than containing
`[7]`, because `Save` never flushes its buffered writer. -/
theorem save_save_single_version_but_content_lost :
    (Save "b" "ab" "y" [[7]] (Save "b" "ab" "x" [[1]] emptyFS)).files.map (fun e => e.1)
        = [(getBlobDir "b" "ab", getBlobName "ab" "y")]
    ∧ Read "b" "ab" "x" 0 1 (Save "b" "ab" "y" [[7]] (Save "b" "ab" "x" [[1]] emptyFS))
        = .error .notFound
    ∧ findFile (getBlobDir "b" "ab", getBlobName "ab" "y")
        (Save "b" "ab" "y" [[7]] (Save "b" "ab" "x" [[1]] emptyFS)).files = some []
    ∧ ([] : List Nat) ≠ [7] :=
  ⟨by decide, rfl, by decide, by decide⟩

/-- Claim C2 (evaluation at the failing input): saving the one-byte content
`[7]` for `("ab", "cs")` leaves the blob file empty: the byte sits in the
`bufio.Writer` buffer, which the source never flushes before returning. -/
theorem save_drops_buffered_tail :
    ([[7]] : List (List Nat)).flatten = [7]
    ∧ savedBytes [[7]] = []
    ∧ findFile (getBlobDir "b" "ab", getBlobName "ab" "cs")
        (Save "b" "ab" "cs" [[7]] emptyFS).files = some []
    ∧ some ([] : List Nat) ≠ some [7] := by
  decide

/-- Claim C8 (counterexample): a blob variant saved under the literal
checksum `"*"` survives `delete`, because the cleanup keep-exception
targets exactly the sentinel name `id==*`; a subsequent read at checksum
`"*"` succeeds instead of failing with not-found. -/
theorem delete_keeps_sentinel_named_blob :
    Delete "b" "ab" (⟨["b/ab"], [((getBlobDir "b" "ab", getBlobName "ab" "*"), [5])]⟩ : FS)
        = .ok (⟨["b/ab"], [((getBlobDir "b" "ab", getBlobName "ab" "*"), [5])]⟩ : FS)
    ∧ Read "b" "ab" "*" 0 1
        (⟨["b/ab"], [((getBlobDir "b" "ab", getBlobName "ab" "*"), [5])]⟩ : FS)
        = .ok ([5], 1) :=
  ⟨rfl, rfl⟩

/-- Claim C8 (amended): after a successful `delete(id)`, a read at any
checksum other than the literal sentinel string `"*"` fails with a
not-found error, no matter how many checksum variants existed for `id`
before the delete. -/
theorem delete_then_read_not_found (blobPath id c : String) (fs fs' : FS)
    (hid : 2 ≤ id.length) (hc : c ≠ "*")
    (hdel : Delete blobPath id fs = .ok fs') (seek l : Nat) :
    Read blobPath id c seek l fs' = .error .notFound := by
  unfold Delete cleanup at hdel
  split at hdel
  case isTrue hdir =>
    have hfs' : fs' = { fs with files := fs.files.filter (fun e =>
        !(e.1.1 == getBlobDir blobPath id && !(e.1.2 == getBlobName id "*")
          && containsSub (getBlobName id "").data e.1.2.data)) } := by
      cases hdel
      rfl
    subst hfs'
    have hnone : findFile (getBlobDir blobPath id, getBlobName id c)
        (fs.files.filter (fun e =>
          !(e.1.1 == getBlobDir blobPath id && !(e.1.2 == getBlobName id "*")
            && containsSub (getBlobName id "").data e.1.2.data))) = none := by
      apply findFile_filter_none
      intro v
      have hname : (getBlobName id c == getBlobName id "*") = false := by
        apply beq_eq_false_iff_ne.mpr
        intro h
        exact hc (getBlobName_inj h)
      simp [hname, containsSub_blobName]
    unfold Read
    dsimp only
    rw [hnone]
  case isFalse hdir =>
    exact absurd hdel (by simp)

/-- Claim C8 (amended, witness): concrete run — one variant at checksum
`"x"` exists, `delete("ab")` succeeds, and the subsequent read at
checksum `"x"` fails with not-found. -/
theorem delete_then_read_not_found_witness :
    Delete "b" "ab" (⟨["b/ab"], [((getBlobDir "b" "ab", getBlobName "ab" "x"), [5])]⟩ : FS)
        = .ok (⟨["b/ab"], []⟩ : FS)
    ∧ Read "b" "ab" "x" 0 1 (⟨["b/ab"], []⟩ : FS) = .error .notFound :=
  ⟨rfl, delete_then_read_not_found "b" "ab" "x"
    (⟨["b/ab"], [((getBlobDir "b" "ab", getBlobName "ab" "x"), [5])]⟩ : FS)
    (⟨["b/ab"], []⟩ : FS) (by decide) (by decide) rfl 0 1⟩

/-- Claim C10: for the distinct ids `"ab"` and `"xab"` — both of length at
least 2, sharing their last two characters (hence the same shard
directory), with `"ab"` a suffix of `"xab"` — `save("ab","c",...)` removes
the existing blob stored for `"xab"`, because cleanup matches stale blobs
by substring containment of `ab==` rather than by id equality. -/
theorem save_removes_other_id_blob :
    ("ab" : String) ≠ "xab"
    ∧ 2 ≤ ("ab" : String).length ∧ 2 ≤ ("xab" : String).length
    ∧ getBlobDir "p" "ab" = getBlobDir "p" "xab"
    ∧ ("xab" : String).data.drop (("xab" : String).length - ("ab" : String).length)
        = ("ab" : String).data
    ∧ findFile (getBlobDir "p" "xab", getBlobName "xab" "z")
        (⟨["p/ab"], [((getBlobDir "p" "xab", getBlobName "xab" "z"), [1])]⟩ : FS).files
        = some [1]
    ∧ findFile (getBlobDir "p" "xab", getBlobName "xab" "z")
        (Save "p" "ab" "c" [[2]]
          (⟨["p/ab"], [((getBlobDir "p" "xab", getBlobName "xab" "z"), [1])]⟩ : FS)).files
        = none := by
  decide


end Blob

namespace Syncer

theorem findRec_setRec (id : String) (v : CachedDriveFile × Bool)
    (recs : List (String × (CachedDriveFile × Bool))) :
    findRec id (setRec id v recs) = some v := by
  induction recs with
  | nil => simp [setRec, findRec]
  | cons e es ih =>
    by_cases he : e.1 = id
    · simp [setRec, findRec, he]
    · simp [setRec, findRec, he, ih]

theorem metaSave_ok {env : Env} {st : MetaState} {parentId id : String}
    {data : CachedDriveFile} {isLeaf flag : Bool} {st1 : MetaState}
    (h : metaSave env st parentId id data isLeaf flag = .ok st1) :
    st1 = { st with records := setRec id (data, isLeaf) st.records,
                    saveLog := st.saveLog ++ [id] } := by
  unfold metaSave at h
  split at h
  · simp at h
  · simp only [Except.ok.injEq] at h
    exact h.symm

theorem mergeChange_largestChangeId (env : Env) (now : Nat) (rootId : String)
    (item : Change) (st : MetaState) :
    ((mergeChange env now rootId item st).1).largestChangeId = st.largestChangeId := by
  unfold mergeChange metaDelete
  split
  · split <;> rfl
  · split
    · rfl
    · split
      all_goals dsimp only
      all_goals split
      · rfl
      · rename_i st1 heq
        rw [metaSave_ok heq]
      · rfl
      · rename_i st1 heq
        rw [metaSave_ok heq]

theorem mergeItems_largestChangeId (env : Env) (now : Nat) (rootId : String)
    (items : List Change) (st : MetaState) (l : Int) :
    ((mergeItems env now rootId items st l).1).largestChangeId = st.largestChangeId := by
  induction items generalizing st l with
  | nil => rfl
  | cons item rest ih =>
    simp only [mergeItems]
    split
    · next heq =>
      have := mergeChange_largestChangeId env now rootId item st
      rw [heq] at this
      exact this
    · next st1 heq =>
      have h1 := mergeChange_largestChangeId env now rootId item st
      rw [heq] at h1
      rw [ih st1 item.id]
      exact h1

theorem mergeItems_largestId (env : Env) (now : Nat) (rootId : String)
    (items : List Change) (st : MetaState) (l : Int)
    (h : (mergeItems env now rootId items st l).2.2 = false) :
    (mergeItems env now rootId items st l).2.1
      = (items.map (fun it => it.id)).getLastD l := by
  induction items generalizing st l with
  | nil => rfl
  | cons item rest ih =>
    simp only [mergeItems] at h ⊢
    split at h
    · simp at h
    · next st1 heq =>
      rw [List.map_cons, List.getLastD_cons]
      exact ih st1 item.id h

theorem mergeChange_saveLog (env : Env) (now : Nat) (rootId : String)
    (item : Change) (st : MetaState) :
    ∃ r, ((mergeChange env now rootId item st).1).saveLog = st.saveLog ++ r := by
  unfold mergeChange metaDelete
  split
  · split
    · exact ⟨[], by simp⟩
    · exact ⟨[], by simp⟩
  · split
    · exact ⟨[], by simp⟩
    · split
      all_goals dsimp only
      all_goals split
      · exact ⟨[], by simp⟩
      · rename_i st1 heq
        rw [metaSave_ok heq]
        exact ⟨[item.fileId], rfl⟩
      · exact ⟨[], by simp⟩
      · rename_i st1 heq
        rw [metaSave_ok heq]
        exact ⟨[item.fileId], rfl⟩

theorem mergeItems_saveLog (env : Env) (now : Nat) (rootId : String)
    (items : List Change) (st : MetaState) (l : Int) :
    ∃ r, ((mergeItems env now rootId items st l).1).saveLog = st.saveLog ++ r := by
  induction items generalizing st l with
  | nil => exact ⟨[], by simp [mergeItems]⟩
  | cons item rest ih =>
    simp only [mergeItems]
    split
    · next heq =>
      obtain ⟨r, hr⟩ := mergeChange_saveLog env now rootId item st
      rw [heq] at hr
      exact ⟨r, hr⟩
    · next st1 heq =>
      obtain ⟨r1, hr1⟩ := mergeChange_saveLog env now rootId item st
      rw [heq] at hr1
      obtain ⟨r2, hr2⟩ := ih st1 item.id
      exact ⟨r1 ++ r2, by rw [hr2, hr1, List.append_assoc]⟩

theorem mergeChanges_saveLog (env : Env) (now : Nat) (isInitialSync : Bool)
    (rootId : String) (startChangeId : Int) (pageToken : String) (st : MetaState) :
    ∃ r, ((mergeChanges env now isInitialSync rootId startChangeId pageToken st).1).saveLog
      = st.saveLog ++ r := by
  unfold mergeChanges
  split
  · exact ⟨[], by simp⟩
  · next changes heq =>
    split
    · next heq2 =>
      obtain ⟨r, hr⟩ := mergeItems_saveLog env now rootId changes.items st 0
      rw [heq2] at hr
      exact ⟨r, hr⟩
    · next st1 largestId heq2 =>
      obtain ⟨r, hr⟩ := mergeItems_saveLog env now rootId changes.items st 0
      rw [heq2] at hr
      split
      · exact ⟨r, hr⟩
      · exact ⟨r, hr⟩

theorem syncPages_saveLog (env : Env) (now : Nat) (isInitialSync : Bool)
    (rootId : String) (startChangeId : Int) (fuel : Nat) (tok : String) (st : MetaState) :
    ∃ r, ((syncPages env now isInitialSync rootId startChangeId fuel tok st).1).saveLog
      = st.saveLog ++ r := by
  induction fuel generalizing tok st with
  | zero => exact ⟨[], by simp [syncPages]⟩
  | succ n ih =>
    simp only [syncPages]
    split
    · next st1 nextTok heq =>
      obtain ⟨r, hr⟩ := mergeChanges_saveLog env now isInitialSync rootId startChangeId tok st
      rw [heq] at hr
      exact ⟨r, hr⟩
    · next st1 nextTok heq =>
      obtain ⟨r1, hr1⟩ := mergeChanges_saveLog env now isInitialSync rootId startChangeId tok st
      rw [heq] at hr1
      split
      · exact ⟨r1, hr1⟩
      · obtain ⟨r2, hr2⟩ := ih nextTok st1
        have hr1a : st1.saveLog = st.saveLog ++ r1 := hr1
        exact ⟨r1 ++ r2, by rw [hr2, hr1a, List.append_assoc]⟩

theorem syncPages_req_includeDeleted (env : Env) (now : Nat) (isInitialSync : Bool)
    (rootId : String) (startChangeId : Int) (fuel : Nat) (tok : String) (st : MetaState)
    (req : ChangeReq)
    (h : req ∈ (syncPages env now isInitialSync rootId startChangeId fuel tok st).2.2) :
    req.includeDeleted = if isInitialSync then some false else none := by
  induction fuel generalizing tok st with
  | zero => simp [syncPages] at h
  | succ n ih =>
    simp only [syncPages] at h
    split at h
    · simp at h
      subst h
      rfl
    · split at h
      · simp at h
        subst h
        rfl
      · simp only [List.mem_cons] at h
        cases h with
        | inl h => subst h; rfl
        | inr h => exact ih _ _ h

theorem metaSave_not_failed {env : Env} {st : MetaState} {parentId id : String}
    {data : CachedDriveFile} {isLeaf flag : Bool} (h : env.failSave id = false) :
    metaSave env st parentId id data isLeaf flag
      = .ok { st with records := setRec id (data, isLeaf) st.records,
                      saveLog := st.saveLog ++ [id] } := by
  unfold metaSave
  rw [h]
  rfl

theorem mergeChange_save (env : Env) (now : Nat) (rootId : String) (item : Change)
    (st : MetaState)
    (hdel : item.deleted = false) (htr : item.file.trashed = false)
    (hskip : (item.file.downloadUrl == ""
      && !(item.file.mimeType == MimeTypeFolder)) = false)
    (hfs : env.failSave item.fileId = false) :
    mergeChange env now rootId item st
      = ({ st with
            records := setRec item.fileId
              (mergeData now rootId item, !(mergeData now rootId item).IsFolder)
              st.records,
            saveLog := st.saveLog ++ [item.fileId] }, false) := by
  unfold mergeChange
  rw [if_neg (by simp [hdel, htr]), if_neg (by simp [hskip])]
  dsimp only
  rw [metaSave_not_failed hfs]
  rfl

/-- Claim C3 (counterexample): a page whose items carry change ids 5 then 2
merges successfully, yet the persisted cursor is 2 — the id of the page's
last item — and not the page maximum 5 that the claim requires. -/
theorem cursor_is_last_not_max :
    (mergeChanges envUnsorted 0 true "R" 0 "" initialMeta).2.2 = false
    ∧ ((pageUnsorted.items.map (fun it => it.id)).foldl max 0) = 5
    ∧ (mergeChanges envUnsorted 0 true "R" 0 "" initialMeta).1.largestChangeId = some 2
    ∧ some (2 : Int) ≠ some (5 : Int) := by
  decide

/-- Claim C3 (amended): for a fetched page whose items all merge
successfully, the persisted cursor becomes the change id of the page's
last item when that id is positive — written only after the whole page has
merged — and the cursor is left unchanged otherwise (in particular for an
empty page or a non-positive last id). -/
theorem mergeChanges_cursor_last_item (env : Env) (now : Nat) (isInitialSync : Bool)
    (rootId : String) (startChangeId : Int) (pageToken : String) (st : MetaState)
    (page : ChangeList)
    (hfetch : env.listChanges (mkChangeReq isInitialSync startChangeId pageToken)
      = .ok page)
    (hmerge : (mergeItems env now rootId page.items st 0).2.2 = false) :
    (mergeChanges env now isInitialSync rootId startChangeId pageToken st).2.2 = false
    ∧ (mergeChanges env now isInitialSync rootId startChangeId pageToken st).1.largestChangeId
      = (if (page.items.map (fun it => it.id)).getLastD 0 > 0
         then some ((page.items.map (fun it => it.id)).getLastD 0)
         else st.largestChangeId) := by
  have hlid := mergeItems_largestId env now rootId page.items st 0 hmerge
  have hcur := mergeItems_largestChangeId env now rootId page.items st 0
  unfold mergeChanges
  rw [hfetch]
  dsimp only
  revert hmerge hlid hcur
  rcases mergeItems env now rootId page.items st 0 with ⟨st1, lid, e⟩
  intro hmerge hlid hcur
  have he : e = false := hmerge
  subst he
  have hl : lid = (page.items.map (fun it => it.id)).getLastD 0 := hlid
  subst hl
  have hc : st1.largestChangeId = st.largestChangeId := hcur
  dsimp only
  by_cases hpos : ((page.items.map (fun it => it.id)).getLastD 0 : Int) > 0
  · rw [if_pos hpos, if_pos hpos]
    exact ⟨rfl, rfl⟩
  · rw [if_neg hpos, if_neg hpos]
    exact ⟨rfl, hc⟩

/-- Claim C3 (amended, witness): on the concrete unsorted page the merge
succeeds and the cursor is persisted as 2, the last item's id. -/
theorem mergeChanges_cursor_last_item_witness :
    (mergeChanges envUnsorted 0 true "R" 0 "" initialMeta).2.2 = false
    ∧ (mergeChanges envUnsorted 0 true "R" 0 "" initialMeta).1.largestChangeId = some 2 := by
  have h := mergeChanges_cursor_last_item envUnsorted 0 true "R" 0 "" initialMeta
    pageUnsorted rfl (by decide)
  exact ⟨h.1, h.2.trans (by decide)⟩

/-- Claim C4 (counterexample): change 1 (file `A`) merges and change 2
(file `B`) fails, so the pass errors with the cursor unwritten; the next
pass with force=false resumes from 0 and merges file `A` again — an
already-merged change item is reprocessed, contradicting the claim. -/
theorem failed_page_items_reprocessed :
    (syncInbound envFailB 0 false 3 initialMeta).errored = true
    ∧ (syncInbound envFailB 0 false 3 initialMeta).st.largestChangeId = none
    ∧ (syncInbound envFailB 0 false 3 initialMeta).st.saveLog = [IdRootFolder, "A"]
    ∧ (syncInbound envFailB 0 false 3
        (syncInbound envFailB 0 false 3 initialMeta).st).st.saveLog
      = [IdRootFolder, "A", IdRootFolder, "A"] := by
  decide

/-- Claim C4 (amended): a page fetch or item merge that fails persists no
cursor — after a failed `mergeChanges` call the metadata cursor equals its
value before the call, so a failed pass leaves the cursor exactly at the
value persisted after the last fully-merged page. -/
theorem mergeChanges_error_preserves_cursor (env : Env) (now : Nat) (isInitialSync : Bool)
    (rootId : String) (startChangeId : Int) (pageToken : String) (st : MetaState)
    (herr : (mergeChanges env now isInitialSync rootId startChangeId pageToken st).2.2
      = true) :
    (mergeChanges env now isInitialSync rootId startChangeId pageToken st).1.largestChangeId
      = st.largestChangeId := by
  unfold mergeChanges at herr ⊢
  revert herr
  rcases env.listChanges (mkChangeReq isInitialSync startChangeId pageToken) with e | changes
  · intro herr
    rfl
  · intro herr
    dsimp only at herr ⊢
    have hcur := mergeItems_largestChangeId env now rootId changes.items st 0
    revert herr hcur
    rcases mergeItems env now rootId changes.items st 0 with ⟨st1, lid, e⟩
    intro herr hcur
    have hc : st1.largestChangeId = st.largestChangeId := hcur
    cases e with
    | true => exact hc
    | false =>
      split at herr
      · rename_i heq
        simp at heq
      · split at herr <;> simp at herr

/-- Claim C4 (amended, witness): the concrete failing page leaves the
cursor at its prior value (unset). -/
theorem mergeChanges_error_preserves_cursor_witness :
    (mergeChanges envFailB 0 true "R" 0 "" initialMeta).2.2 = true
    ∧ (mergeChanges envFailB 0 true "R" 0 "" initialMeta).1.largestChangeId = none :=
  ⟨by decide,
    mergeChanges_error_preserves_cursor envFailB 0 true "R" 0 "" initialMeta (by decide)⟩

/-- Claim C5: for a non-deleted, non-trashed change item, (a) an item with
an empty download reference whose MIME type is not the folder type is
skipped — the merge leaves the state unchanged and returns no error; (b)
an item whose MIME type is the folder type (in particular one with an
empty download reference) is persisted, when the collaborator save
succeeds, with the leaf flag set to false. -/
theorem mergeChange_skip_and_folder_leaf (env : Env) (now : Nat) (rootId : String)
    (item : Change) (st : MetaState)
    (hdel : item.deleted = false) (htr : item.file.trashed = false) :
    (item.file.downloadUrl = "" → item.file.mimeType ≠ MimeTypeFolder →
      mergeChange env now rootId item st = (st, false))
    ∧ (item.file.mimeType = MimeTypeFolder → env.failSave item.fileId = false →
      (mergeChange env now rootId item st).2 = false
      ∧ ∃ d, findRec item.fileId ((mergeChange env now rootId item st).1).records
          = some (d, false)) := by
  constructor
  · intro hdl hmt
    unfold mergeChange
    rw [if_neg (by simp [hdel, htr])]
    rw [if_pos (by simp [hdl, hmt])]
  · intro hmt hfs
    rw [mergeChange_save env now rootId item st hdel htr (by simp [hmt]) hfs]
    refine ⟨rfl, mergeData now rootId item, ?_⟩
    have hleaf : (!(mergeData now rootId item).IsFolder) = false := by
      simp [mergeData, CachedDriveFile.IsFolder, hmt]
    dsimp only
    rw [hleaf]
    exact findRec_setRec _ _ _

/-- Claim C5 (witness): a non-folder item without a download reference is
skipped, and a folder item without a download reference is persisted with
a false leaf flag. -/
theorem mergeChange_skip_and_folder_leaf_witness :
    mergeChange envEmptyFeed 0 "R"
      ⟨4, "P", false, { folderFile "P" ["R"] with mimeType := "text/plain" }⟩ initialMeta
      = (initialMeta, false)
    ∧ (mergeChange envEmptyFeed 0 "R"
        ⟨5, "A", false, folderFile "A" ["R"]⟩ initialMeta).2 = false
    ∧ ∃ d, findRec "A" ((mergeChange envEmptyFeed 0 "R"
        ⟨5, "A", false, folderFile "A" ["R"]⟩ initialMeta).1).records = some (d, false) := by
  refine ⟨?_, ?_⟩
  · exact (mergeChange_skip_and_folder_leaf envEmptyFeed 0 "R"
      ⟨4, "P", false, { folderFile "P" ["R"] with mimeType := "text/plain" }⟩ initialMeta
      rfl rfl).1 rfl (by decide)
  · exact (mergeChange_skip_and_folder_leaf envEmptyFeed 0 "R"
      ⟨5, "A", false, folderFile "A" ["R"]⟩ initialMeta rfl rfl).2 rfl rfl

/-- Claim C6: (1) every change item the merge persists stores as parentId
the id of its first listed parent when parents are listed and the empty
string otherwise, except that a parent id equal to the remote account's
(non-empty) true root id is remapped to the canonical sentinel root id;
(2) every pass that fetches the root and saves it successfully persists
the root record under the sentinel id before merging any page item. -/
theorem merge_parent_remap_and_root_first :
    (∀ (env : Env) (now : Nat) (rootId : String) (item : Change) (st : MetaState),
      rootId ≠ "" →
      item.deleted = false → item.file.trashed = false →
      (item.file.downloadUrl = "" → item.file.mimeType = MimeTypeFolder) →
      env.failSave item.fileId = false →
      ∃ d leaf,
        findRec item.fileId ((mergeChange env now rootId item st).1).records
            = some (d, leaf)
        ∧ d.parentId = (match item.file.parents with
            | [] => ""
            | p :: _ => if p = rootId then IdRootFolder else p))
    ∧ (∀ (env : Env) (now : Nat) (isForce : Bool) (fuel : Nat) (st : MetaState)
        (rf : DriveFile),
      env.rootFile = .ok rf → env.failSave IdRootFolder = false →
      ∃ rest, ((syncInbound env now isForce fuel st).st).saveLog
          = st.saveLog ++ IdRootFolder :: rest) := by
  constructor
  · intro env now rootId item st hroot hdel htr hskip hfs
    have hskip' : (item.file.downloadUrl == ""
        && !(item.file.mimeType == MimeTypeFolder)) = false := by
      by_cases hdl : item.file.downloadUrl = ""
      · simp [hskip hdl]
      · simp [hdl]
    rw [mergeChange_save env now rootId item st hdel htr hskip' hfs]
    refine ⟨mergeData now rootId item, !(mergeData now rootId item).IsFolder, ?_, ?_⟩
    · dsimp only
      exact findRec_setRec _ _ _
    · unfold mergeData
      cases hp : item.file.parents with
      | nil =>
        dsimp only
        have h0 : (("" : String) == rootId) = false := by
          simp only [beq_eq_false_iff_ne]
          exact fun h => hroot h.symm
        simp [h0]
      | cons p ps =>
        dsimp only
        by_cases hpr : p = rootId
        · rw [if_pos (by simp [hpr]), if_pos hpr]
        · rw [if_neg (by simp [hpr]), if_neg hpr]
  · intro env now isForce fuel st rf hrf hsave
    unfold syncInbound
    rw [hrf]
    dsimp only
    rw [metaSave_not_failed hsave]
    dsimp only
    have hsp := syncPages_saveLog env now
      (resumePoint isForce st.largestChangeId == 0) rf.id
      (resumePoint isForce st.largestChangeId) fuel ""
      { st with
          records := setRec IdRootFolder
            ({ id := IdRootFolder, parentId := "", name := rf.title,
               mimeType := rf.mimeType, fileSize := rf.fileSize,
               md5Checksum := rf.md5Checksum, lastMod := now }, false) st.records,
          saveLog := st.saveLog ++ [IdRootFolder] }
    obtain ⟨r, hr⟩ := hsp
    refine ⟨r, ?_⟩
    rw [hr]
    simp

/-- Claim C6 (witness): the concrete item with parent `"R"` merged against
true root id `"R"` is stored with the sentinel parent id, and a concrete
pass logs the sentinel root save before everything else. -/
theorem merge_parent_remap_and_root_first_witness :
    (∃ d leaf, findRec "A" ((mergeChange envEmptyFeed 0 "R"
        ⟨5, "A", false, folderFile "A" ["R"]⟩ initialMeta).1).records = some (d, leaf)
      ∧ d.parentId = IdRootFolder)
    ∧ ∃ rest, ((syncInbound envEmptyFeed 0 true 1 initialMeta).st).saveLog
        = IdRootFolder :: rest := by
  constructor
  · obtain ⟨d, leaf, h1, h2⟩ := merge_parent_remap_and_root_first.1 envEmptyFeed 0 "R"
      ⟨5, "A", false, folderFile "A" ["R"]⟩ initialMeta (by decide) rfl rfl
      (fun _ => rfl) rfl
    exact ⟨d, leaf, h1, h2.trans (by decide)⟩
  · obtain ⟨rest, hrest⟩ := merge_parent_remap_and_root_first.2 envEmptyFeed 0 true 1
      initialMeta (folderFile "R" []) rfl rfl
    exact ⟨rest, hrest⟩

/-- Claim C7: the resume point is 0 when force is set or the cursor read
fails, and the persisted cursor plus one otherwise; and every change
listing request of the pass excludes deletion tombstones exactly when the
resume point is 0. -/
theorem resume_rule_and_tombstones (env : Env) (now : Nat) (isForce : Bool)
    (fuel : Nat) (st : MetaState) :
    (isForce = true → resumePoint isForce st.largestChangeId = 0)
    ∧ (st.largestChangeId = none → resumePoint isForce st.largestChangeId = 0)
    ∧ (∀ v : Int, isForce = false → st.largestChangeId = some v →
        resumePoint isForce st.largestChangeId = v + 1)
    ∧ (∀ req, req ∈ (syncInbound env now isForce fuel st).reqs →
        (req.includeDeleted = some false ↔ resumePoint isForce st.largestChangeId = 0)) := by
  refine ⟨?_, ?_, ?_, ?_⟩
  · intro hf
    cases hc : st.largestChangeId <;> simp [resumePoint, hf]
  · intro hc
    simp [resumePoint, hc]
  · intro v hf hc
    simp [resumePoint, hf, hc]
  · intro req hreq
    unfold syncInbound at hreq
    dsimp only at hreq
    cases henv : env.rootFile with
    | error e =>
      rw [henv] at hreq
      simp at hreq
    | ok rf =>
      rw [henv] at hreq
      dsimp only at hreq
      cases hms : metaSave env st "" IdRootFolder
          { id := IdRootFolder, parentId := "", name := rf.title,
            mimeType := rf.mimeType, fileSize := rf.fileSize,
            md5Checksum := rf.md5Checksum, lastMod := now } false false with
      | error e =>
        rw [hms] at hreq
        simp at hreq
      | ok st1 =>
        rw [hms] at hreq
        dsimp only at hreq
        have h := syncPages_req_includeDeleted env now
          (resumePoint isForce st.largestChangeId == 0) rf.id
          (resumePoint isForce st.largestChangeId) fuel "" st1 req hreq
        rw [h]
        by_cases h0 : resumePoint isForce st.largestChangeId = 0
        · rw [if_pos (by simp [h0])]
          simp [h0]
        · rw [if_neg (by simp [h0])]
          simp [h0]

/-- Claim C7 (witness): with a persisted cursor of 5 and force unset the
resume point is 6, and no request of the concrete pass sets the
include-deleted flag to false (no tombstone exclusion). -/
theorem resume_rule_and_tombstones_witness :
    resumePoint false ((⟨some 5, [], []⟩ : MetaState).largestChangeId) = 6
    ∧ ∀ req, req ∈ (syncInbound envEmptyFeed 0 false 1 (⟨some 5, [], []⟩ : MetaState)).reqs →
        req.includeDeleted ≠ some false := by
  have h := resume_rule_and_tombstones envEmptyFeed 0 false 1 (⟨some 5, [], []⟩ : MetaState)
  refine ⟨h.2.2.1 5 rfl rfl, ?_⟩
  intro req hreq hsome
  have h6 := (h.2.2.2 req hreq).mp hsome
  rw [h.2.2.1 5 rfl rfl] at h6
  exact absurd h6 (by decide)

/-- Claim C9: for a deleted or trashed change item the per-item merge
returns no error regardless of the metadata delete outcome — the guard
`if d.metaService.Delete(item.FileId); err != nil` tests the enclosing
function's still-nil error value, so a delete failure is never
propagated. -/
theorem deleted_item_merge_never_errors (env : Env) (now : Nat) (rootId : String)
    (item : Change) (st : MetaState)
    (h : item.deleted = true ∨ item.file.trashed = true) :
    (mergeChange env now rootId item st).2 = false := by
  unfold mergeChange
  rcases h with h | h <;> rw [if_pos (by simp [h])]

/-- Claim C9 (witness): a deleted item merged in an environment whose
metadata delete always reports an error still yields no merge error. -/
theorem deleted_item_merge_never_errors_witness :
    envDeleteFails.deleteFails "D" = true
    ∧ (mergeChange envDeleteFails 0 "R"
        ⟨3, "D", true, folderFile "D" []⟩ initialMeta).2 = false :=
  ⟨rfl, deleted_item_merge_never_errors envDeleteFails 0 "R"
    ⟨3, "D", true, folderFile "D" []⟩ initialMeta (Or.inl rfl)⟩

end Syncer

end Drivefuse
